import Mathlib

set_option maxRecDepth 40000

/-!
# Shallow embedding of the Pop DAO example contract

This development embeds the governance/treasury contract of
`pop-api/examples/dao/src/lib.rs` (an ink! smart contract) and proves
properties about it.

Modelling conventions:
* `AccountId` and byte values are modelled as `Nat`.
* `Balance` is `u128` in the source; all balance arithmetic in the source is
  saturating (`saturating_add`), modelled by `satAdd128`.
* `BlockNumber` is `u32` in the source (ink `DefaultEnvironment`); its
  saturating addition is `satAdd32`.  The `proposals_created` counter is
  `u32` and uses `satAdd32` as well.
* The `ink::storage::Mapping` stores are modelled as functions
  `Nat → Option v`, with `mupdate` playing the role of `Mapping::insert`.
* The fungible-token ledger is an external collaborator: its responses
  (`api::transfer_from` in `join`, `api::balance_of` and the privileged
  runtime transfer in `execute_proposal`, `api::create` in `new`) are passed
  to each operation as explicit `Except` parameters.
* Each operation returns the `Result` value of the Rust message together
  with the contract state as it stands when the message body returns
  (the raw effect of the contract's own writes, before any host-level
  transaction handling).  `execute_proposal` additionally returns the list
  of ledger transfers it invoked.
-/

/-- `u32::MAX`, the saturation bound for block numbers and the proposal
counter. -/
def UMAX32 : Nat := 4294967295

/-- `u128::MAX`, the saturation bound for balances. -/
def UMAX128 : Nat := 340282366920938463463374607431768211455

/-- `u32::saturating_add`. -/
def satAdd32 (a b : Nat) : Nat := min (a + b) UMAX32

/-- `u128::saturating_add`. -/
def satAdd128 (a b : Nat) : Nat := min (a + b) UMAX128

/-- `Mapping::insert`: point update of a keyed store. -/
def mupdate {v : Type} (m : Nat → Option v) (k : Nat) (x : v) : Nat → Option v :=
  fun k2 => if k2 = k then some x else m k2

/-- `ProposalStatus` from the source. -/
inductive ProposalStatus where
  | Submitted
  | Approved
  | Rejected
  | Executed
  deriving DecidableEq, Repr

/-- `Votes` from the source: the voting window and the running tally. -/
structure Votes where
  vote_start : Nat
  vote_end : Nat
  yes_votes : Nat
  no_votes : Nat
  deriving DecidableEq, Repr

/-- `Transaction` from the source: the payout instruction. -/
structure Transaction where
  beneficiary : Nat
  amount : Nat
  deriving DecidableEq, Repr

/-- `Proposal` from the source. -/
structure Proposal where
  description : List Nat
  status : ProposalStatus
  proposal_id : Nat
  votes_infos : Option Votes
  transaction_infos : Option Transaction
  deriving DecidableEq, Repr

/-- `Member` from the source. -/
structure Member where
  voting_power : Nat
  last_vote : Nat
  deriving DecidableEq, Repr

/-- The PSP22 ledger error type; its structure is irrelevant to the
contract, which only wraps and propagates it. -/
inductive Psp22Error where
  | err : Nat → Psp22Error
  deriving DecidableEq, Repr

/-- `Error` from the source (the contract's error enum). -/
inductive Error where
  | ProposalNotFound
  | VotingPeriodEnded
  | MemberNotFound
  | AlreadyVoted
  | VotingPeriodNotEnded
  | ProposalExecuted
  | ProposalRejected
  | ExceedeMaxDescriptionLength
  | NotEnoughFundsAvailable
  | WrongContract
  | CallRuntimeFailed
  | Psp22 : Psp22Error → Error
  deriving DecidableEq, Repr

/-- A ledger transfer invoked by the contract (used to record the
privileged runtime transfer performed by `execute_proposal`). -/
structure TransferCall where
  sender : Nat
  recipient : Nat
  value : Nat
  deriving DecidableEq, Repr

/-- The contract storage struct `Dao`. -/
structure Dao where
  proposals : Nat → Option Proposal
  members : Nat → Option Member
  last_votes : Nat → Option Nat
  voting_period : Nat
  token_id : Nat
  proposals_created : Nat

/-- The freshly instantiated storage built by the constructor `Dao::new`
(empty mappings, `proposals_created = 0`). -/
def Dao.newState (token_id voting_period : Nat) : Dao :=
  { proposals := fun _ => none
    members := fun _ => none
    last_votes := fun _ => none
    voting_period := voting_period
    token_id := token_id
    proposals_created := 0 }

/-- `Dao::new`: creates the associated token on the ledger (`api::create`,
whose outcome is the external parameter `createResult`) and returns the
fresh instance; a ledger failure is propagated. -/
def Dao.new (token_id voting_period _min_balance : Nat)
    (createResult : Except Psp22Error Unit) : Except Psp22Error Dao :=
  match createResult with
  | Except.error e => Except.error e
  | Except.ok _ => Except.ok (Dao.newState token_id voting_period)

/-- `impl Default for Proposal`: the source fetches the already-stored `Dao`
from contract storage to read its `voting_period` and pairs it with the
current block number; here both are passed explicitly.  The default record
has an empty description, status `Submitted`, id 0, a voting window of
`[current_block, current_block + voting_period]` (saturating end) with a
zero tally, and no payout instruction. -/
def Proposal.defaultFor (voting_period current_block : Nat) : Proposal :=
  { description := []
    status := ProposalStatus.Submitted
    proposal_id := 0
    votes_infos := some
      { vote_start := current_block
        vote_end := satAdd32 current_block voting_period
        yes_votes := 0
        no_votes := 0 }
    transaction_infos := none }

/-- `Dao::create_proposal`.  NOTE (faithful to the source): the
`proposals_created` counter is saturating-incremented at the top of the
message body, BEFORE the description-length check, and the pre-incremented
counter value is used as the new proposal's id. -/
def Dao.create_proposal (self : Dao) (beneficiary amount : Nat)
    (description : List Nat) (current_block : Nat) : Except Error Unit × Dao :=
  let self1 : Dao := { self with proposals_created := satAdd32 self.proposals_created 1 }
  if 255 ≤ description.length then
    (Except.error Error.ExceedeMaxDescriptionLength, self1)
  else
    let base := Proposal.defaultFor self1.voting_period current_block
    let proposal : Proposal :=
      { base with
        proposal_id := self1.proposals_created
        description := description
        transaction_infos := some { beneficiary := beneficiary, amount := amount } }
    (Except.ok (),
      { self1 with proposals := mupdate self1.proposals proposal.proposal_id proposal })

/-- `Dao::vote`.  NOTE (faithful to the source): when the voting window has
ended (`current_block > vote_end`), the source computes the finalized
status (`Approved` when `yes_votes > no_votes`, else `Rejected`) on its
LOCAL copy of the proposal and then returns `Err(VotingPeriodEnded)`
without ever inserting the modified proposal back into the `proposals`
mapping, so the stored state is unchanged on that path. -/
def Dao.vote (self : Dao) (caller proposal_id : Nat) (approve : Bool)
    (current_block : Nat) : Except Error Unit × Dao :=
  match self.proposals proposal_id with
  | none => (Except.error Error.ProposalNotFound, self)
  | some proposal =>
    match proposal.votes_infos with
    | none => (Except.error Error.WrongContract, self)
    | some votes_infos =>
      if votes_infos.vote_end < current_block then
        (Except.error Error.VotingPeriodEnded, self)
      else
        match self.members caller with
        | none => (Except.error Error.MemberNotFound, self)
        | some member =>
          if votes_infos.vote_start ≤ member.last_vote then
            (Except.error Error.AlreadyVoted, self)
          else
            let vi2 : Votes :=
              if approve then
                { votes_infos with
                  yes_votes := satAdd128 votes_infos.yes_votes member.voting_power }
              else
                { votes_infos with
                  no_votes := satAdd128 votes_infos.no_votes member.voting_power }
            let proposal2 : Proposal := { proposal with votes_infos := some vi2 }
            (Except.ok (),
              { self with
                proposals := mupdate self.proposals proposal_id proposal2
                members := mupdate self.members caller
                  { voting_power := member.voting_power, last_vote := current_block }
                last_votes := mupdate self.last_votes caller current_block })

/-- `Dao::execute_proposal`.  External inputs: `contract` is the contract's
own account id, `balance_of` is the ledger's answer to
`api::balance_of(token_id, contract)`, and `runtimeTransfer` is the outcome
of the privileged runtime transfer.  NOTE (faithful to the source): the
runtime transfer's result is DISCARDED by the source
(`let _ = self.env().call_runtime(...).map_err(EnvError::from);`), so the
`runtimeTransfer` parameter does not influence the result: the status flip
to `Executed` and the `Ok` return happen whether or not the transfer
succeeded.  The returned list records the transfer calls invoked. -/
def Dao.execute_proposal (self : Dao) (proposal_id current_block contract : Nat)
    (balance_of : Except Psp22Error Nat) (_runtimeTransfer : Except Unit Unit) :
    Except Error Unit × Dao × List TransferCall :=
  match self.proposals proposal_id with
  | none => (Except.error Error.ProposalNotFound, self, [])
  | some proposal =>
    match proposal.votes_infos with
    | none => (Except.error Error.WrongContract, self, [])
    | some votes_infos =>
      match proposal.transaction_infos with
      | none => (Except.error Error.WrongContract, self, [])
      | some transaction_infos =>
        if current_block ≤ votes_infos.vote_end then
          (Except.error Error.VotingPeriodNotEnded, self, [])
        else if proposal.status = ProposalStatus.Executed then
          (Except.error Error.ProposalExecuted, self, [])
        else if votes_infos.no_votes < votes_infos.yes_votes then
          match balance_of with
          | Except.ok val =>
            if transaction_infos.amount < val then
              let transfers : List TransferCall :=
                [{ sender := contract
                   recipient := transaction_infos.beneficiary
                   value := transaction_infos.amount }]
              let proposal2 : Proposal := { proposal with status := ProposalStatus.Executed }
              (Except.ok (),
                { self with proposals := mupdate self.proposals proposal_id proposal2 },
                transfers)
            else (Except.error Error.NotEnoughFundsAvailable, self, [])
          | Except.error _ => (Except.error Error.NotEnoughFundsAvailable, self, [])
        else (Except.error Error.ProposalRejected, self, [])

/-- `Dao::join`.  `transfer_from` is the ledger's answer to
`api::transfer_from(token_id, caller, contract, amount)`; on failure the
wrapped PSP22 error is returned and nothing is written.  On success the
caller's member record is fetched (defaulting to
`{voting_power: 0, last_vote: 0}`), `amount` is saturating-added to
`voting_power`, and `last_vote` is kept. -/
def Dao.join (self : Dao) (caller amount : Nat)
    (transfer_from : Except Psp22Error Unit) : Except Error Unit × Dao :=
  match transfer_from with
  | Except.error e => (Except.error (Error.Psp22 e), self)
  | Except.ok _ =>
    let member := (self.members caller).getD { voting_power := 0, last_vote := 0 }
    let voting_power := satAdd128 member.voting_power amount
    (Except.ok (),
      { self with
        members := mupdate self.members caller
          { voting_power := voting_power, last_vote := member.last_vote } })

/-- `Dao::get_member`: defaults to `{voting_power: 0, last_vote: 0}`. -/
def Dao.get_member (self : Dao) (account : Nat) : Member :=
  (self.members account).getD { voting_power := 0, last_vote := 0 }

/-- `Dao::get_proposal`. -/
def Dao.get_proposal (self : Dao) (proposal_id : Nat) : Option Proposal :=
  self.proposals proposal_id

/-- A sequence of `join` calls by one account in which every ledger
transfer succeeds. -/
def Dao.joinAll (self : Dao) (caller : Nat) (amounts : List Nat) : Dao :=
  amounts.foldl (fun s a => (Dao.join s caller a (Except.ok ())).2) self

deriving instance DecidableEq for Except

/-- A concrete contract state used to instantiate theorems: one stored
proposal (id 1, status `Submitted`, voting window `[1, 11]`, tally
`yes = 5, no = 0`, payout of 7 to account 2) and one member (account 3,
voting power 5, `last_vote = 0`). -/
def sampleDao : Dao :=
  { proposals := fun k =>
      if k = 1 then
        some
          { description := []
            status := ProposalStatus.Submitted
            proposal_id := 1
            votes_infos := some { vote_start := 1, vote_end := 11, yes_votes := 5, no_votes := 0 }
            transaction_infos := some { beneficiary := 2, amount := 7 } }
      else none
    members := fun k => if k = 3 then some { voting_power := 5, last_vote := 0 } else none
    last_votes := fun _ => none
    voting_period := 10
    token_id := 1
    proposals_created := 1 }

/-- A concrete contract state with two live proposals sharing overlapping
voting windows (ids 1 and 2, both with window `[1, 11]`) and one member
(account 3). -/
def sampleDao2 : Dao :=
  { proposals := fun k =>
      if k = 1 then
        some
          { description := []
            status := ProposalStatus.Submitted
            proposal_id := 1
            votes_infos := some { vote_start := 1, vote_end := 11, yes_votes := 0, no_votes := 0 }
            transaction_infos := some { beneficiary := 2, amount := 7 } }
      else if k = 2 then
        some
          { description := []
            status := ProposalStatus.Submitted
            proposal_id := 2
            votes_infos := some { vote_start := 1, vote_end := 11, yes_votes := 0, no_votes := 0 }
            transaction_infos := some { beneficiary := 4, amount := 3 } }
      else none
    members := fun k => if k = 3 then some { voting_power := 5, last_vote := 0 } else none
    last_votes := fun _ => none
    voting_period := 10
    token_id := 1
    proposals_created := 2 }

/-- One transition of the engine state: a single invocation of any of the
four mutating messages, with arbitrary arguments and arbitrary ledger
responses. -/
inductive Step : Dao → Dao → Prop where
  | join (d : Dao) (caller amount : Nat) (tr : Except Psp22Error Unit) :
      Step d (Dao.join d caller amount tr).2
  | create_proposal (d : Dao) (beneficiary amount current_block : Nat)
      (description : List Nat) :
      Step d (Dao.create_proposal d beneficiary amount description current_block).2
  | vote (d : Dao) (caller proposal_id current_block : Nat) (approve : Bool) :
      Step d (Dao.vote d caller proposal_id approve current_block).2
  | execute_proposal (d : Dao) (proposal_id current_block contract : Nat)
      (bal : Except Psp22Error Nat) (rt : Except Unit Unit) :
      Step d (Dao.execute_proposal d proposal_id current_block contract bal rt).2.1

/-- States reachable from a freshly instantiated contract through the
public messages. -/
inductive Reachable : Dao → Prop where
  | base (token_id voting_period : Nat) : Reachable (Dao.newState token_id voting_period)
  | step (d d2 : Dao) : Reachable d → Step d d2 → Reachable d2

/-- Invariant: every stored proposal has status `Submitted` or `Executed`
(the `Approved` and `Rejected` statuses are never persisted). -/
def statusInv (d : Dao) : Prop :=
  ∀ pid p, d.proposals pid = some p →
    p.status = ProposalStatus.Submitted ∨ p.status = ProposalStatus.Executed

/-- Helper: `join` leaves the state untouched whenever it returns an
error. -/
theorem join_error_state (d : Dao) (c a : Nat) (tr : Except Psp22Error Unit)
    (e : Error) (d2 : Dao) (h : Dao.join d c a tr = (Except.error e, d2)) :
    d2 = d := by
  cases tr with
  | error e2 => simp only [Dao.join, Prod.mk.injEq] at h; exact h.2.symm
  | ok u => simp only [Dao.join, Prod.mk.injEq] at h; exact absurd h.1 (by simp)

/-- Helper: `vote` leaves the state untouched whenever it returns an
error. -/
theorem vote_error_state (d : Dao) (c pid cb : Nat) (a : Bool) (e : Error)
    (d2 : Dao) (h : Dao.vote d c pid a cb = (Except.error e, d2)) : d2 = d := by
  unfold Dao.vote at h
  repeat' split at h
  all_goals simp_all

/-- Helper: `execute_proposal` leaves the state untouched and invokes no
ledger transfer whenever it returns an error. -/
theorem execute_error_state (d : Dao) (pid cb ct : Nat)
    (bal : Except Psp22Error Nat) (rt : Except Unit Unit) (e : Error) (d2 : Dao)
    (ts : List TransferCall)
    (h : Dao.execute_proposal d pid cb ct bal rt = (Except.error e, d2, ts)) :
    d2 = d ∧ ts = [] := by
  unfold Dao.execute_proposal at h
  repeat' split at h
  all_goals simp_all

/-- Helper: when `create_proposal` returns an error, the state differs from
the initial one exactly in the already-incremented proposal counter. -/
theorem create_error_state (d : Dao) (b am cb : Nat) (desc : List Nat)
    (e : Error) (d2 : Dao)
    (h : Dao.create_proposal d b am desc cb = (Except.error e, d2)) :
    d2 = { d with proposals_created := satAdd32 d.proposals_created 1 } := by
  unfold Dao.create_proposal at h
  split at h
  · simp only [Prod.mk.injEq] at h
    exact h.2.symm
  · simp only [Prod.mk.injEq] at h
    exact absurd h.1 (by simp)

/-- C1: in the code, the runtime transfer's result is discarded
(`let _ = ...`), so even when the ledger transfer FAILS
(`Except.error ()` below), `execute_proposal` still returns `Ok`, still
flips the stored status to `Executed`, and the failure is never surfaced —
refuting the claim that a ledger failure is surfaced and the status flip
happens only on transfer success. -/
theorem execute_ignores_transfer_failure :
    (Dao.execute_proposal sampleDao 1 12 9 (Except.ok 100) (Except.error ())).1 = Except.ok ()
    ∧ ((Dao.execute_proposal sampleDao 1 12 9 (Except.ok 100)
          (Except.error ())).2.1.get_proposal 1).map Proposal.status
        = some ProposalStatus.Executed
    ∧ (Dao.execute_proposal sampleDao 1 12 9 (Except.ok 100) (Except.error ())).2.2
        = [{ sender := 9, recipient := 2, value := 7 }] := by
  refine ⟨by decide, by decide, by decide⟩

/-- C2 (counterexample): voting at block 12 on `sampleDao`'s proposal 1
(window `[1, 11]`, tally `yes = 5 > no = 0`, status `Submitted`) returns
`VotingPeriodEnded`, but the stored status remains `Submitted` — the
`Approved` status the claim says is persisted never reaches the store. -/
theorem vote_lazy_finalization_not_persisted :
    (Dao.vote sampleDao 3 1 true 12).1 = Except.error Error.VotingPeriodEnded
    ∧ (sampleDao.get_proposal 1).map Proposal.status = some ProposalStatus.Submitted
    ∧ (sampleDao.get_proposal 1).map Proposal.votes_infos
        = some (some { vote_start := 1, vote_end := 11, yes_votes := 5, no_votes := 0 })
    ∧ ((Dao.vote sampleDao 3 1 true 12).2.get_proposal 1).map Proposal.status
        = some ProposalStatus.Submitted := by
  refine ⟨by decide, by decide, by decide, by decide⟩

/-- C2 (amended): a `vote` call on a proposal whose voting window has ended
returns `VotingPeriodEnded` and leaves the entire stored state unchanged —
the `Approved`/`Rejected` transition is computed only on a local copy and
never persisted. -/
theorem vote_after_window_ends_noop (d : Dao) (caller pid cb : Nat) (a : Bool)
    (p : Proposal) (vi : Votes)
    (hp : d.proposals pid = some p) (hv : p.votes_infos = some vi)
    (hend : vi.vote_end < cb) :
    Dao.vote d caller pid a cb = (Except.error Error.VotingPeriodEnded, d) := by
  simp only [Dao.vote, hp, hv]
  rw [if_pos hend]

/-- Witness for `vote_after_window_ends_noop` on the concrete state
`sampleDao`. -/
theorem vote_after_window_ends_noop_witness :
    Dao.vote sampleDao 3 1 true 12 = (Except.error Error.VotingPeriodEnded, sampleDao) :=
  vote_after_window_ends_noop sampleDao 3 1 12 true
    { description := []
      status := ProposalStatus.Submitted
      proposal_id := 1
      votes_infos := some { vote_start := 1, vote_end := 11, yes_votes := 5, no_votes := 0 }
      transaction_infos := some { beneficiary := 2, amount := 7 } }
    { vote_start := 1, vote_end := 11, yes_votes := 5, no_votes := 0 }
    rfl rfl (by decide)

/-- C3 (counterexample): a `create_proposal` call with a 255-byte
description fails with `ExceedeMaxDescriptionLength`, yet the
`proposals_created` counter has moved from 0 to 1 — the counter is
incremented before the length check, so this failing call does mutate
engine state. -/
theorem create_error_still_bumps_counter :
    (Dao.create_proposal (Dao.newState 1 10) 2 30000 (List.replicate 255 0) 0).1
        = Except.error Error.ExceedeMaxDescriptionLength
    ∧ (Dao.create_proposal (Dao.newState 1 10) 2 30000
          (List.replicate 255 0) 0).2.proposals_created = 1
    ∧ (Dao.newState 1 10).proposals_created = 0 := by
  refine ⟨by decide, by decide, by decide⟩

/-- C3 (amended): `join`, `vote` and `execute_proposal` leave the engine
state unchanged whenever they return an error (and a failed
`execute_proposal` invokes no ledger transfer); a failed `create_proposal`
leaves the proposal and member stores unchanged but has already
saturating-incremented the proposal-id counter. -/
theorem errors_commit_nothing_except_create_counter :
    (∀ d c a tr e d2, Dao.join d c a tr = (Except.error e, d2) → d2 = d)
    ∧ (∀ d c pid cb a e d2, Dao.vote d c pid a cb = (Except.error e, d2) → d2 = d)
    ∧ (∀ d pid cb ct bal rt e d2 ts,
        Dao.execute_proposal d pid cb ct bal rt = (Except.error e, d2, ts) →
          d2 = d ∧ ts = [])
    ∧ (∀ d b am desc cb e d2,
        Dao.create_proposal d b am desc cb = (Except.error e, d2) →
          d2 = { d with proposals_created := satAdd32 d.proposals_created 1 }) := by
  refine ⟨?_, ?_, ?_, ?_⟩
  · intro d c a tr e d2 h
    exact join_error_state d c a tr e d2 h
  · intro d c pid cb a e d2 h
    exact vote_error_state d c pid cb a e d2 h
  · intro d pid cb ct bal rt e d2 ts h
    exact execute_error_state d pid cb ct bal rt e d2 ts h
  · intro d b am desc cb e d2 h
    exact create_error_state d b am cb desc e d2 h

/-- Witness for `errors_commit_nothing_except_create_counter`: the failing
255-byte `create_proposal` call on a fresh state yields exactly the fresh
state with the counter bumped. -/
theorem errors_commit_nothing_except_create_counter_witness :
    (Dao.create_proposal (Dao.newState 1 10) 2 30000 (List.replicate 255 0) 0).2
      = { Dao.newState 1 10 with
          proposals_created := satAdd32 (Dao.newState 1 10).proposals_created 1 } :=
  errors_commit_nothing_except_create_counter.2.2.2 (Dao.newState 1 10) 2 30000
    (List.replicate 255 0) 0 Error.ExceedeMaxDescriptionLength
    (Dao.create_proposal (Dao.newState 1 10) 2 30000 (List.replicate 255 0) 0).2 rfl

/-- C5: on a fresh instance (`proposals_created = 0`) the first successful
`create_proposal` stores nothing under id 0 and stores the new proposal
under id 1 — the counter is incremented before being used as the id, so
the first proposal's id is 1, not 0. -/
theorem first_create_assigns_id_one :
    (Dao.create_proposal (Dao.newState 1 10) 2 30000 [100] 0).1 = Except.ok ()
    ∧ (Dao.create_proposal (Dao.newState 1 10) 2 30000 [100] 0).2.get_proposal 0 = none
    ∧ ((Dao.create_proposal (Dao.newState 1 10) 2 30000 [100] 0).2.get_proposal 1).map
        Proposal.proposal_id = some 1 := by
  refine ⟨by decide, by decide, by decide⟩

/-- Helper: one successful `join` saturating-adds the amount to the
caller's voting power and keeps `last_vote`. -/
theorem join_get_member (d : Dao) (caller amount : Nat) :
    Dao.get_member (Dao.join d caller amount (Except.ok ())).2 caller
      = { voting_power := satAdd128 (Dao.get_member d caller).voting_power amount
          last_vote := (Dao.get_member d caller).last_vote } := by
  simp [Dao.join, Dao.get_member, mupdate]

/-- Helper: a sequence of successful `join` calls folds the saturating
addition over the amounts and keeps `last_vote`. -/
theorem joinAll_get_member (d : Dao) (caller : Nat) (amounts : List Nat) :
    Dao.get_member (Dao.joinAll d caller amounts) caller
      = { voting_power := amounts.foldl satAdd128 (Dao.get_member d caller).voting_power
          last_vote := (Dao.get_member d caller).last_vote } := by
  induction amounts generalizing d with
  | nil => simp [Dao.joinAll]
  | cons a as ih =>
    have h1 : Dao.joinAll d caller (a :: as)
        = Dao.joinAll (Dao.join d caller a (Except.ok ())).2 caller as := rfl
    rw [h1, ih, join_get_member]
    simp [List.foldl_cons]

/-- Helper: folding the saturating addition never goes below the initial
value (when it is in range) and never exceeds `u128::MAX`. -/
theorem le_foldl_satAdd128 (l : List Nat) (init : Nat) (h : init ≤ UMAX128) :
    init ≤ l.foldl satAdd128 init ∧ l.foldl satAdd128 init ≤ UMAX128 := by
  induction l generalizing init with
  | nil => exact ⟨le_refl _, h⟩
  | cons a as ih =>
    simp only [List.foldl_cons]
    have h1 : init ≤ satAdd128 init a := le_min (Nat.le_add_right _ _) h
    have h2 : satAdd128 init a ≤ UMAX128 := min_le_right _ _
    rcases ih (satAdd128 init a) h2 with ⟨ha, hb⟩
    exact ⟨le_trans h1 ha, hb⟩

/-- C7: for any finite sequence of successful `join` calls by one account,
the resulting voting power is the saturating fold of the amounts over the
starting power; `last_vote` is unchanged (hence 0 for a new member, whose
starting power is 0); and the power never decreases and never exceeds
`u128::MAX`. -/
theorem join_sequence_voting_power (d : Dao) (caller : Nat) (amounts : List Nat) :
    (Dao.get_member (Dao.joinAll d caller amounts) caller).voting_power
        = amounts.foldl satAdd128 (Dao.get_member d caller).voting_power
    ∧ (Dao.get_member (Dao.joinAll d caller amounts) caller).last_vote
        = (Dao.get_member d caller).last_vote
    ∧ ((Dao.get_member d caller).voting_power ≤ UMAX128 →
        (Dao.get_member d caller).voting_power
            ≤ (Dao.get_member (Dao.joinAll d caller amounts) caller).voting_power
        ∧ (Dao.get_member (Dao.joinAll d caller amounts) caller).voting_power ≤ UMAX128)
    ∧ (d.members caller = none →
        (Dao.get_member (Dao.joinAll d caller amounts) caller).last_vote = 0
        ∧ (Dao.get_member (Dao.joinAll d caller amounts) caller).voting_power
            = amounts.foldl satAdd128 0) := by
  have hm := joinAll_get_member d caller amounts
  refine ⟨by rw [hm], by rw [hm], ?_, ?_⟩
  · intro h
    rw [hm]
    exact le_foldl_satAdd128 amounts _ h
  · intro h
    have hz : Dao.get_member d caller = { voting_power := 0, last_vote := 0 } := by
      simp [Dao.get_member, h]
    rw [hm, hz]
    exact ⟨rfl, rfl⟩

/-- Witness for `join_sequence_voting_power`: two joins of 20000 and 5 by
a fresh account give voting power 20005 and `last_vote = 0`. -/
theorem join_sequence_voting_power_witness :
    (Dao.get_member (Dao.joinAll (Dao.newState 1 10) 3 [20000, 5]) 3).voting_power = 20005
    ∧ (Dao.get_member (Dao.joinAll (Dao.newState 1 10) 3 [20000, 5]) 3).last_vote = 0 := by
  have h := (join_sequence_voting_power (Dao.newState 1 10) 3 [20000, 5]).2.2.2 rfl
  exact ⟨by rw [h.2]; decide, h.1⟩

/-- C8: a successful `create_proposal` stores, under the assigned id, a
proposal with status `Submitted`, a zero tally, the supplied description
and payout instruction, and voting window
`[current_block, current_block + voting_period]` with saturating end. -/
theorem create_then_get_roundtrip (d : Dao) (b am cb : Nat) (desc : List Nat)
    (hlen : desc.length < 255) :
    (Dao.create_proposal d b am desc cb).1 = Except.ok ()
    ∧ (Dao.create_proposal d b am desc cb).2.get_proposal (satAdd32 d.proposals_created 1)
        = some
          { description := desc
            status := ProposalStatus.Submitted
            proposal_id := satAdd32 d.proposals_created 1
            votes_infos := some
              { vote_start := cb
                vote_end := satAdd32 cb d.voting_period
                yes_votes := 0
                no_votes := 0 }
            transaction_infos := some { beneficiary := b, amount := am } } := by
  have hnot : ¬ 255 ≤ desc.length := by omega
  constructor
  · simp [Dao.create_proposal, hnot]
  · simp [Dao.create_proposal, Dao.get_proposal, hnot, mupdate, Proposal.defaultFor]

/-- Witness for `create_then_get_roundtrip` on a fresh state. -/
theorem create_then_get_roundtrip_witness :
    (Dao.create_proposal (Dao.newState 1 10) 2 30000 [100] 0).2.get_proposal 1
      = some
        { description := [100]
          status := ProposalStatus.Submitted
          proposal_id := 1
          votes_infos := some { vote_start := 0, vote_end := 10, yes_votes := 0, no_votes := 0 }
          transaction_infos := some { beneficiary := 2, amount := 30000 } } := by
  have h := (create_then_get_roundtrip (Dao.newState 1 10) 2 30000 0 [100] (by decide)).2
  exact h

/-- Helper: inversion of a successful `vote`.  A success means the proposal
and its voting info exist, the window had not ended, the caller is a member
whose `last_vote` predates the window start, and the post-state updates the
tally, the member's `last_vote` and the `last_votes` map exactly as the
source does. -/
theorem vote_ok_inv (d d1 : Dao) (caller pid cb : Nat) (a : Bool)
    (h : Dao.vote d caller pid a cb = (Except.ok (), d1)) :
    ∃ p vi m, d.proposals pid = some p ∧ p.votes_infos = some vi
      ∧ ¬ vi.vote_end < cb ∧ d.members caller = some m
      ∧ ¬ vi.vote_start ≤ m.last_vote
      ∧ d1 = { d with
          proposals := mupdate d.proposals pid
            { p with votes_infos := some (if a then
                { vi with yes_votes := satAdd128 vi.yes_votes m.voting_power }
              else
                { vi with no_votes := satAdd128 vi.no_votes m.voting_power }) }
          members := mupdate d.members caller
            { voting_power := m.voting_power, last_vote := cb }
          last_votes := mupdate d.last_votes caller cb } := by
  cases hP : d.proposals pid with
  | none => simp [Dao.vote, hP] at h
  | some p =>
    cases hV : p.votes_infos with
    | none => simp [Dao.vote, hP, hV] at h
    | some vi =>
      by_cases hend : vi.vote_end < cb
      · simp [Dao.vote, hP, hV, hend] at h
      · cases hM : d.members caller with
        | none => simp [Dao.vote, hP, hV, hend, hM] at h
        | some m =>
          by_cases hlv : vi.vote_start ≤ m.last_vote
          · simp [Dao.vote, hP, hV, hend, hM, hlv] at h
          · refine ⟨p, vi, m, rfl, hV, hend, rfl, hlv, ?_⟩
            simp only [Dao.vote, hP, hV, hM] at h
            rw [if_neg hend, if_neg hlv] at h
            simp only [Prod.mk.injEq] at h
            cases a <;> simpa using h.2.symm

/-- C6: after a member's successful `vote` on a proposal at a height inside
the window, a second `vote` by the same member on the same proposal while
the window is still open returns `AlreadyVoted` and leaves the whole state
unchanged. -/
theorem second_vote_same_proposal_rejected (d d1 : Dao) (A pid h1 h2 : Nat)
    (a1 a2 : Bool) (p : Proposal) (vi : Votes)
    (hp : d.proposals pid = some p) (hv : p.votes_infos = some vi)
    (hstart : vi.vote_start ≤ h1)
    (hsucc : Dao.vote d A pid a1 h1 = (Except.ok (), d1))
    (hopen : h2 ≤ vi.vote_end) :
    Dao.vote d1 A pid a2 h2 = (Except.error Error.AlreadyVoted, d1) := by
  obtain ⟨p0, vi0, m0, hp0, hv0, hend0, hm0, hlv0, hd1⟩ :=
    vote_ok_inv d d1 A pid h1 a1 hsucc
  rw [hp] at hp0
  injection hp0 with hpp
  subst hpp
  rw [hv] at hv0
  injection hv0 with hvv
  subst hvv
  subst hd1
  cases a1 <;>
    simp [Dao.vote, mupdate, hstart, Nat.not_lt.mpr hopen]

/-- Witness for `second_vote_same_proposal_rejected` on `sampleDao`
(member 3 votes on proposal 1 at block 2, votes again at block 3). -/
theorem second_vote_same_proposal_rejected_witness :
    Dao.vote (Dao.vote sampleDao 3 1 true 2).2 3 1 false 3
      = (Except.error Error.AlreadyVoted, (Dao.vote sampleDao 3 1 true 2).2) :=
  second_vote_same_proposal_rejected sampleDao (Dao.vote sampleDao 3 1 true 2).2 3 1 2 3
    true false
    { description := []
      status := ProposalStatus.Submitted
      proposal_id := 1
      votes_infos := some { vote_start := 1, vote_end := 11, yes_votes := 5, no_votes := 0 }
      transaction_infos := some { beneficiary := 2, amount := 7 } }
    { vote_start := 1, vote_end := 11, yes_votes := 5, no_votes := 0 }
    rfl rfl (by decide) rfl (by decide)

/-- C9: after a member successfully votes on proposal A at height `h1`,
any vote by the same member on any proposal B whose window is still open
returns `AlreadyVoted` (leaving the state unchanged) whenever
`B.vote_start ≤ h1` — the member's single global `last_vote` marker is the
only eligibility record, shared across proposals. -/
theorem vote_blocks_other_open_proposals (d d1 : Dao) (M apid bpid h1 h2 : Nat)
    (a1 a2 : Bool) (pB : Proposal) (viB : Votes)
    (hsucc : Dao.vote d M apid a1 h1 = (Except.ok (), d1))
    (hpB : d1.proposals bpid = some pB) (hvB : pB.votes_infos = some viB)
    (hopen : h2 ≤ viB.vote_end) (hstart : viB.vote_start ≤ h1) :
    Dao.vote d1 M bpid a2 h2 = (Except.error Error.AlreadyVoted, d1) := by
  obtain ⟨p0, vi0, m0, hp0, hv0, hend0, hm0, hlv0, hd1⟩ :=
    vote_ok_inv d d1 M apid h1 a1 hsucc
  have hmem : d1.members M = some { voting_power := m0.voting_power, last_vote := h1 } := by
    rw [hd1]
    simp [mupdate]
  simp only [Dao.vote, hpB, hvB, hmem]
  rw [if_neg (Nat.not_lt.mpr hopen), if_pos hstart]

/-- Witness for `vote_blocks_other_open_proposals` on `sampleDao2`
(member 3 votes on proposal 1 at block 2, then tries proposal 2 at
block 3 while its window is still open). -/
theorem vote_blocks_other_open_proposals_witness :
    Dao.vote (Dao.vote sampleDao2 3 1 true 2).2 3 2 true 3
      = (Except.error Error.AlreadyVoted, (Dao.vote sampleDao2 3 1 true 2).2) :=
  vote_blocks_other_open_proposals sampleDao2 (Dao.vote sampleDao2 3 1 true 2).2 3 1 2 2 3
    true true
    { description := []
      status := ProposalStatus.Submitted
      proposal_id := 2
      votes_infos := some { vote_start := 1, vote_end := 11, yes_votes := 0, no_votes := 0 }
      transaction_infos := some { beneficiary := 4, amount := 3 } }
    { vote_start := 1, vote_end := 11, yes_votes := 0, no_votes := 0 }
    rfl rfl rfl (by decide) (by decide)

/-- Helper: calling `execute_proposal` on a stored proposal whose status is
already `Executed`, after its window, fails with `ProposalExecuted`,
changes nothing and invokes no transfer. -/
theorem execute_on_executed (dd : Dao) (pid cb2 ct2 : Nat) (bal2 : Except Psp22Error Nat)
    (rt2 : Except Unit Unit) (q : Proposal) (viq : Votes) (tiq : Transaction)
    (hq : dd.proposals pid = some q) (hvq : q.votes_infos = some viq)
    (htq : q.transaction_infos = some tiq)
    (hwq : ¬ cb2 ≤ viq.vote_end) (hsq : q.status = ProposalStatus.Executed) :
    Dao.execute_proposal dd pid cb2 ct2 bal2 rt2
      = (Except.error Error.ProposalExecuted, dd, []) := by
  simp only [Dao.execute_proposal, hq, hvq, htq]
  rw [if_neg hwq, if_pos hsq]

/-- C4: when a proposal with voting info and a payout instruction exists and
the ledger reports treasury balance `bal`, `execute_proposal` returns `Ok`
iff the window has closed, the status is not `Executed`, the tally strictly
approves, and `bal` strictly exceeds the payout amount; on success the
stored status becomes `Executed` and every later call (at any height not
below the first) fails with `ProposalExecuted`, changes nothing and invokes
no ledger transfer. -/
theorem execute_proposal_correct (d : Dao) (pid cb ct bal : Nat)
    (rt : Except Unit Unit) (p : Proposal) (vi : Votes) (ti : Transaction)
    (hp : d.proposals pid = some p) (hv : p.votes_infos = some vi)
    (ht : p.transaction_infos = some ti) :
    ((Dao.execute_proposal d pid cb ct (Except.ok bal) rt).1 = Except.ok ()
      ↔ vi.vote_end < cb ∧ p.status ≠ ProposalStatus.Executed
        ∧ vi.no_votes < vi.yes_votes ∧ ti.amount < bal)
    ∧ ((Dao.execute_proposal d pid cb ct (Except.ok bal) rt).1 = Except.ok () →
        ((Dao.execute_proposal d pid cb ct (Except.ok bal) rt).2.1.proposals pid).map
            Proposal.status = some ProposalStatus.Executed
        ∧ ∀ cb2 ct2 bal2 rt2, cb ≤ cb2 →
            Dao.execute_proposal
                (Dao.execute_proposal d pid cb ct (Except.ok bal) rt).2.1 pid cb2 ct2 bal2 rt2
              = (Except.error Error.ProposalExecuted,
                 (Dao.execute_proposal d pid cb ct (Except.ok bal) rt).2.1, [])) := by
  have heval : Dao.execute_proposal d pid cb ct (Except.ok bal) rt
      = if cb ≤ vi.vote_end then (Except.error Error.VotingPeriodNotEnded, d, [])
        else if p.status = ProposalStatus.Executed then
          (Except.error Error.ProposalExecuted, d, [])
        else if vi.no_votes < vi.yes_votes then
          if ti.amount < bal then
            (Except.ok (),
              { d with
                  proposals :=
                    mupdate d.proposals pid ({ p with status := ProposalStatus.Executed }) },
              [{ sender := ct, recipient := ti.beneficiary, value := ti.amount }])
          else (Except.error Error.NotEnoughFundsAvailable, d, [])
        else (Except.error Error.ProposalRejected, d, []) := by
    simp only [Dao.execute_proposal, hp, hv, ht]
  rw [heval]
  by_cases h1 : cb ≤ vi.vote_end
  · rw [if_pos h1]
    refine ⟨⟨fun hok => absurd hok (by simp), fun hc => absurd h1 (by omega)⟩,
      fun hok => absurd hok (by simp)⟩
  · rw [if_neg h1]
    by_cases h2 : p.status = ProposalStatus.Executed
    · rw [if_pos h2]
      refine ⟨⟨fun hok => absurd hok (by simp), fun hc => absurd h2 hc.2.1⟩,
        fun hok => absurd hok (by simp)⟩
    · rw [if_neg h2]
      by_cases h3 : vi.no_votes < vi.yes_votes
      · rw [if_pos h3]
        by_cases h4 : ti.amount < bal
        · rw [if_pos h4]
          refine ⟨⟨fun _ => ⟨by omega, h2, h3, h4⟩, fun _ => rfl⟩, fun _ => ⟨?_, ?_⟩⟩
          · simp [mupdate]
          · intro cb2 ct2 bal2 rt2 hcb2
            exact execute_on_executed _ pid cb2 ct2 bal2 rt2
              ({ p with status := ProposalStatus.Executed }) vi ti
              (by simp [mupdate]) hv ht (by omega) rfl
        · rw [if_neg h4]
          refine ⟨⟨fun hok => absurd hok (by simp), fun hc => absurd hc.2.2.2 h4⟩,
            fun hok => absurd hok (by simp)⟩
      · rw [if_neg h3]
        refine ⟨⟨fun hok => absurd hok (by simp), fun hc => absurd hc.2.2.1 h3⟩,
          fun hok => absurd hok (by simp)⟩

/-- Witness for `execute_proposal_correct` on `sampleDao` at block 12 with
treasury balance 100. -/
theorem execute_proposal_correct_witness :
    (Dao.execute_proposal sampleDao 1 12 9 (Except.ok 100) (Except.ok ())).1
      = Except.ok () :=
  (execute_proposal_correct sampleDao 1 12 9 100 (Except.ok ())
    { description := []
      status := ProposalStatus.Submitted
      proposal_id := 1
      votes_infos := some { vote_start := 1, vote_end := 11, yes_votes := 5, no_votes := 0 }
      transaction_infos := some { beneficiary := 2, amount := 7 } }
    { vote_start := 1, vote_end := 11, yes_votes := 5, no_votes := 0 }
    { beneficiary := 2, amount := 7 }
    rfl rfl rfl).1.mpr (by decide)

/-- Helper: `join` never touches the proposal store. -/
theorem join_proposals_eq (d : Dao) (c a : Nat) (tr : Except Psp22Error Unit) :
    (Dao.join d c a tr).2.proposals = d.proposals := by
  cases tr <;> rfl

/-- Helper: `join` preserves the status invariant. -/
theorem join_statusInv (d : Dao) (c a : Nat) (tr : Except Psp22Error Unit)
    (h : statusInv d) : statusInv (Dao.join d c a tr).2 := by
  intro pid p hp
  rw [join_proposals_eq] at hp
  exact h pid p hp

/-- Helper: `create_proposal` preserves the status invariant (the inserted
proposal is `Submitted`). -/
theorem create_statusInv (d : Dao) (b am cb : Nat) (desc : List Nat)
    (h : statusInv d) : statusInv (Dao.create_proposal d b am desc cb).2 := by
  intro pid p hp
  by_cases hlen : 255 ≤ desc.length
  · have hpe : (Dao.create_proposal d b am desc cb).2.proposals = d.proposals := by
      simp [Dao.create_proposal, hlen]
    rw [hpe] at hp
    exact h pid p hp
  · have heq : (Dao.create_proposal d b am desc cb).2.proposals
        = mupdate d.proposals (satAdd32 d.proposals_created 1)
            { description := desc
              status := ProposalStatus.Submitted
              proposal_id := satAdd32 d.proposals_created 1
              votes_infos := some
                { vote_start := cb
                  vote_end := satAdd32 cb d.voting_period
                  yes_votes := 0
                  no_votes := 0 }
              transaction_infos := some { beneficiary := b, amount := am } } := by
      simp [Dao.create_proposal, hlen, Proposal.defaultFor]
    rw [heq] at hp
    simp only [mupdate] at hp
    by_cases hk : pid = satAdd32 d.proposals_created 1
    · rw [if_pos hk] at hp
      injection hp with hpp
      left
      rw [← hpp]
    · rw [if_neg hk] at hp
      exact h pid p hp

/-- Helper: `vote` preserves the status invariant (a successful vote keeps
the proposal's status; a failed one writes nothing). -/
theorem vote_statusInv (d : Dao) (c pid2 cb : Nat) (a : Bool)
    (h : statusInv d) : statusInv (Dao.vote d c pid2 a cb).2 := by
  rcases hres : Dao.vote d c pid2 a cb with ⟨r, d2⟩
  cases r with
  | error e =>
    have hde : d2 = d := vote_error_state d c pid2 cb a e d2 hres
    intro pid p hp
    replace hp : d2.proposals pid = some p := hp
    rw [hde] at hp
    exact h pid p hp
  | ok u =>
    cases u
    obtain ⟨p0, vi0, m0, hp0, hv0, hend0, hm0, hlv0, hd1⟩ :=
      vote_ok_inv d d2 c pid2 cb a hres
    intro pid p hp
    replace hp : d2.proposals pid = some p := hp
    rw [hd1] at hp
    simp only [mupdate] at hp
    by_cases hk : pid = pid2
    · rw [if_pos hk] at hp
      injection hp with hpp
      have hstat : p.status = p0.status := by rw [← hpp]
      rw [hstat]
      exact h pid2 p0 hp0
    · rw [if_neg hk] at hp
      exact h pid p hp

/-- Helper: inversion of a successful `execute_proposal`: the post-state is
the pre-state with the proposal's status set to `Executed`. -/
theorem execute_ok_inv (d d1 : Dao) (pid cb ct : Nat) (bal : Except Psp22Error Nat)
    (rt : Except Unit Unit) (ts : List TransferCall)
    (h : Dao.execute_proposal d pid cb ct bal rt = (Except.ok (), d1, ts)) :
    ∃ p, d.proposals pid = some p
      ∧ d1 = { d with
            proposals :=
              mupdate d.proposals pid ({ p with status := ProposalStatus.Executed }) } := by
  cases hP : d.proposals pid with
  | none => simp [Dao.execute_proposal, hP] at h
  | some p =>
    cases hV : p.votes_infos with
    | none => simp [Dao.execute_proposal, hP, hV] at h
    | some vi =>
      cases hT : p.transaction_infos with
      | none => simp [Dao.execute_proposal, hP, hV, hT] at h
      | some ti =>
        by_cases h1 : cb ≤ vi.vote_end
        · simp [Dao.execute_proposal, hP, hV, hT, h1] at h
        · by_cases h2 : p.status = ProposalStatus.Executed
          · simp [Dao.execute_proposal, hP, hV, hT, h1, h2] at h
          · by_cases h3 : vi.no_votes < vi.yes_votes
            · cases bal with
              | error e => simp [Dao.execute_proposal, hP, hV, hT, h1, h2, h3] at h
              | ok val =>
                by_cases h4 : ti.amount < val
                · refine ⟨p, rfl, ?_⟩
                  rw [hV, hT]
                  simp only [Dao.execute_proposal, hP, hV, hT] at h
                  rw [if_neg h1, if_neg h2, if_pos h3, if_pos h4] at h
                  simp only [Prod.mk.injEq] at h
                  exact h.2.1.symm
                · simp [Dao.execute_proposal, hP, hV, hT, h1, h2, h3, h4] at h
            · simp [Dao.execute_proposal, hP, hV, hT, h1, h2, h3] at h

/-- Helper: `execute_proposal` preserves the status invariant (on success
the proposal becomes `Executed`; on failure nothing is written). -/
theorem execute_statusInv (d : Dao) (pid2 cb ct : Nat) (bal : Except Psp22Error Nat)
    (rt : Except Unit Unit) (h : statusInv d) :
    statusInv (Dao.execute_proposal d pid2 cb ct bal rt).2.1 := by
  rcases hres : Dao.execute_proposal d pid2 cb ct bal rt with ⟨r, d2, ts⟩
  cases r with
  | error e =>
    obtain ⟨hde, -⟩ := execute_error_state d pid2 cb ct bal rt e d2 ts hres
    intro pid p hp
    replace hp : d2.proposals pid = some p := hp
    rw [hde] at hp
    exact h pid p hp
  | ok u =>
    cases u
    obtain ⟨p0, hp0, hd2⟩ := execute_ok_inv d d2 pid2 cb ct bal rt ts hres
    intro pid p hp
    replace hp : d2.proposals pid = some p := hp
    rw [hd2] at hp
    simp only [mupdate] at hp
    by_cases hk : pid = pid2
    · rw [if_pos hk] at hp
      injection hp with hpp
      right
      rw [← hpp]
    · rw [if_neg hk] at hp
      exact h pid p hp

/-- C10: in every state reachable from a fresh instance through the public
messages, every stored proposal has status `Submitted` or `Executed`:
`Approved` and `Rejected` are never persisted, because the lazy-finalization
branch of `vote` returns before writing and `execute_proposal` writes only
`Executed`. -/
theorem reachable_statusInv (d : Dao) (hd : Reachable d) : statusInv d := by
  induction hd with
  | base t v =>
    intro pid p hp
    exact absurd hp (by simp [Dao.newState])
  | step d0 d2 hr hs ih =>
    cases hs with
    | join c a tr => exact join_statusInv d0 c a tr ih
    | create_proposal b am cb desc => exact create_statusInv d0 b am cb desc ih
    | vote c pid cb a => exact vote_statusInv d0 c pid cb a ih
    | execute_proposal pid cb ct bal rt => exact execute_statusInv d0 pid cb ct bal rt ih

/-- Witness for `reachable_statusInv`: the proposal stored by the first
`create_proposal` on a fresh instance has status `Submitted` or
`Executed`. -/
theorem reachable_statusInv_witness :
    ({ description := [100]
       status := ProposalStatus.Submitted
       proposal_id := 1
       votes_infos := some { vote_start := 0, vote_end := 10, yes_votes := 0, no_votes := 0 }
       transaction_infos := some { beneficiary := 2, amount := 30000 } } : Proposal).status
        = ProposalStatus.Submitted
    ∨ ({ description := [100]
         status := ProposalStatus.Submitted
         proposal_id := 1
         votes_infos := some { vote_start := 0, vote_end := 10, yes_votes := 0, no_votes := 0 }
         transaction_infos := some { beneficiary := 2, amount := 30000 } } : Proposal).status
        = ProposalStatus.Executed :=
  reachable_statusInv (Dao.create_proposal (Dao.newState 1 10) 2 30000 [100] 0).2
    (Reachable.step (Dao.newState 1 10)
      (Dao.create_proposal (Dao.newState 1 10) 2 30000 [100] 0).2
      (Reachable.base 1 10)
      (Step.create_proposal (Dao.newState 1 10) 2 30000 0 [100]))
    1
    { description := [100]
      status := ProposalStatus.Submitted
      proposal_id := 1
      votes_infos := some { vote_start := 0, vote_end := 10, yes_votes := 0, no_votes := 0 }
      transaction_infos := some { beneficiary := 2, amount := 30000 } }
    rfl

